import Mathlib

/-!
Verification of `scripts/dataset_generators/gen_imagenette.py`.

The script converts the tfds "imagenette" dataset into a directory-per-class
tree plus two JSON spec documents.  We embed its observable behaviour as a
pure function over a filesystem model: a set of existing directories plus an
ordered log of file writes.  External collaborators (tfds iteration, PIL
decode, PIL save) are parameters: the dataset splits are given as lists of
examples, decoding is an `Option`-valued function, and save success is a
Boolean predicate on image and path.
-/

namespace Imagenette

/-- An image payload (raw array or decoded image), abstracted as its data. -/
abbrev Img := List Nat

/-- One labeled example yielded by `as_numpy_iterator`: the raw image array
`i["image"]` and the integer class label `i["label"]`. -/
structure Example where
  image : Img
  label : Int
deriving DecidableEq, Repr

/-- `os.path.join` for POSIX paths, two arguments: an absolute second
argument discards the first; otherwise a separator is inserted unless the
first part is empty or already ends with one. -/
def osPathJoin (a b : String) : String :=
  if b.data.head? = some '/' then b
  else if a.data = [] ∨ a.data.getLast? = some '/' then String.mk (a.data ++ b.data)
  else String.mk (a.data ++ '/' :: b.data)

def DEST_ROOT : String := "/home/churilla/nfs/datasets/"

def DIR_NAME : String := "imagenette"

def DIR_ROOT : String := osPathJoin DEST_ROOT DIR_NAME

def TRAIN_ROOT : String := osPathJoin DIR_ROOT "train"

def TEST_ROOT : String := osPathJoin DIR_ROOT "test"

def IMAGENETTE_LABELS : List String :=
  ["tench", "English_springer", "cassette_player", "chain_saw", "church",
   "French_horn", "garbage_truck", "gas_pump", "golf_ball", "parachute"]

/-- The `imageProperties` object of a spec document. -/
structure ImageProperties where
  dimensions : String
  colorspace : String
deriving DecidableEq, Repr

/-- The `sampling` object of a spec document. -/
structure Sampling where
  algorithm : String
  arguments : List (String × String)
deriving DecidableEq, Repr

/-- One entry of a spec document's `data` array. -/
structure DataEntry where
  label : Nat
  labelName : String
  directory : String
deriving DecidableEq, Repr

/-- A spec document (`train_spec` / `test_spec` in the script). -/
structure SpecDoc where
  numModelClasses : Nat
  imageProperties : ImageProperties
  sampling : Sampling
  description : String
  timestamp : String
  formatVersion : String
  data : List DataEntry
deriving DecidableEq, Repr

/-- The content of a written file: a serialized spec document or a PNG. -/
inductive FileContent where
  | json (doc : SpecDoc)
  | png (img : Img)
deriving DecidableEq, Repr

/-- The filesystem model: the set of existing directories (as a list, used
only through membership) and the ordered log of file writes. -/
structure FS where
  dirs : List String
  files : List (String × FileContent)
deriving DecidableEq, Repr

/-- Split a character list on the path separator. -/
def splitComps : List Char → List (List Char)
  | [] => [[]]
  | c :: rest =>
    match splitComps rest with
    | [] => [[]]
    | h :: t => if c = '/' then [] :: h :: t else (c :: h) :: t

/-- Nonempty path components of `p` (what `os.makedirs` walks). -/
def pathComps (p : String) : List (List Char) :=
  (splitComps p.data).filter (fun c => c ≠ [])

/-- Rebuild an absolute path from components. -/
def joinComps (cs : List (List Char)) : String :=
  String.mk (cs.foldl (fun acc c => acc ++ '/' :: c) [])

/-- The directory a `makedirs` call targets, normalized. -/
def pathTarget (p : String) : String := joinComps (pathComps p)

/-- The directories `os.makedirs p` ensures exist: the target and every
ancestor of it. -/
def pathDirs (p : String) : List String :=
  (List.range (pathComps p).length).map fun k => joinComps ((pathComps p).take (k + 1))

/-- Model of `os.makedirs(p, exist_ok=ok)`: raises `FileExistsError` when the
target already exists and `exist_ok` is false; otherwise records the target
and all of its ancestors as existing directories. -/
def makedirs (fs : FS) (p : String) (exist_ok : Bool) : Except String FS :=
  if ¬ exist_ok ∧ pathTarget p ∈ fs.dirs then Except.error "FileExistsError"
  else Except.ok { fs with dirs := fs.dirs ++ pathDirs p }

/-- The directory-building block of the script: `makedirs` on `DEST_ROOT`,
on `join(DEST_ROOT, TRAIN_ROOT)`, on `join(DEST_ROOT, TEST_ROOT)`, then on
`join(DEST_ROOT, d, lab)` for each split root `d` and label `lab`, each call
with `exist_ok=True`. -/
def buildDirs (fs : FS) : Except String FS := do
  let fs1 ← makedirs fs DEST_ROOT true
  let fs2 ← makedirs fs1 (osPathJoin DEST_ROOT TRAIN_ROOT) true
  let fs3 ← makedirs fs2 (osPathJoin DEST_ROOT TEST_ROOT) true
  List.foldlM
    (fun acc d =>
      List.foldlM
        (fun acc2 lab => makedirs acc2 (osPathJoin (osPathJoin DEST_ROOT d) lab) true)
        acc IMAGENETTE_LABELS)
    fs3 [TRAIN_ROOT, TEST_ROOT]

def train_spec_filename : String := "imagenette_nXn_rgb_train_van.json"

def test_spec_filename : String := "imagenette_nXn_rgb_test_van.json"

/-- The `train_spec` dictionary.  The wall-clock timestamp
(`datetime.datetime.now()`) is a parameter. -/
def train_spec (now : String) : SpecDoc :=
  { numModelClasses := 10
    imageProperties := { dimensions := "224,224", colorspace := "rgb" }
    sampling := { algorithm := "none", arguments := [] }
    description := "imagenette train images, NxN, rgb"
    timestamp := now
    formatVersion := "2.0.0"
    data := IMAGENETTE_LABELS.enum.map fun p =>
      { label := p.1, labelName := p.2
        directory := osPathJoin (osPathJoin DIR_NAME "train") p.2 } }

/-- The `test_spec` dictionary.  The wall-clock timestamp is a parameter. -/
def test_spec (now : String) : SpecDoc :=
  { numModelClasses := 10
    imageProperties := { dimensions := "224,224", colorspace := "rgb" }
    sampling := { algorithm := "none", arguments := [] }
    description := "imagenette test images, NxN, rgb"
    timestamp := now
    formatVersion := "2.0.0"
    data := IMAGENETTE_LABELS.enum.map fun p =>
      { label := p.1, labelName := p.2
        directory := osPathJoin (osPathJoin DIR_NAME "test") p.2 } }

def train_spec_path : String := osPathJoin (osPathJoin DEST_ROOT DIR_ROOT) train_spec_filename

def test_spec_path : String := osPathJoin (osPathJoin DEST_ROOT DIR_ROOT) test_spec_filename

/-- Append one file-write event to the log. -/
def writeFile (fs : FS) (p : String) (c : FileContent) : FS :=
  { fs with files := fs.files ++ [(p, c)] }

/-- The spec-writing block: dump `train_spec` then `test_spec` as JSON under
`join(DEST_ROOT, DIR_ROOT, filename)`. -/
def writeSpecs (fs : FS) (nowTrain nowTest : String) : FS :=
  writeFile (writeFile fs train_spec_path (FileContent.json (train_spec nowTrain)))
    test_spec_path (FileContent.json (test_spec nowTest))

/-- Decimal digits of `n`, most significant first, by structural recursion
on a fuel bound (exact once the fuel is at least `n`). -/
def natDecimalAux : Nat → Nat → List Char
  | 0, n => [Char.ofNat (48 + n % 10)]
  | fuel + 1, n =>
    if n < 10 then [Char.ofNat (48 + n)]
    else natDecimalAux fuel (n / 10) ++ [Char.ofNat (48 + n % 10)]

/-- Decimal digit characters of `n`, most significant first. -/
def natDecimal (n : Nat) : List Char := natDecimalAux n n

/-- The f-string `f"{cnt:0>6d}"`: the decimal rendering of `cnt`, left-padded
with `'0'` to a minimum width of 6. -/
def zeroPad6 (n : Nat) : String :=
  String.mk (List.replicate (6 - (natDecimal n).length) '0' ++ natDecimal n)

/-- Python list indexing `xs[i]` for a possibly negative integer index:
a negative `i` counts from the end; out-of-range raises `IndexError`
(modelled as `none`). -/
def pyIndex (xs : List String) (i : Int) : Option String :=
  let j : Int := if i < 0 then (xs.length : Int) + i else i
  if h : 0 ≤ j ∧ j < (xs.length : Int) then
    some (xs.get ⟨j.toNat, by omega⟩)
  else none

/-- The path an image is saved to:
`os.path.join(DEST_ROOT, splitRoot, labelName, name)`. -/
def imgPath (splitRoot lname name : String) : String :=
  osPathJoin (osPathJoin (osPathJoin DEST_ROOT splitRoot) lname) name

/-- Result of the image-writing stages: on success the final counter value
and filesystem; on an uncaught exception, the filesystem at the abort. -/
inductive RunResult where
  | ok (cnt : Nat) (fs : FS)
  | aborted (fs : FS)
deriving DecidableEq, Repr

/-- The filesystem component of a run result. -/
def RunResult.fs : RunResult → FS
  | .ok _ fs => fs
  | .aborted fs => fs

/-- One image-writing loop of the script over split root `splitRoot`:
for each example in order, form the name `f"{cnt:0>6d}.png"`, decode the raw
array (`Image.fromarray`), look the label name up by integer index, save the
image to `join(DEST_ROOT, splitRoot, labelName, name)`, and increment the
counter.  A decode failure, an `IndexError` on the label lookup, or a save
failure aborts the run, leaving the filesystem as it stands. -/
def writeSplit (decode : Img → Option Img) (saveOk : Img → String → Bool)
    (splitRoot : String) : List Example → Nat → FS → RunResult
  | [], cnt, fs => .ok cnt fs
  | e :: rest, cnt, fs =>
    let name := zeroPad6 cnt ++ ".png"
    match decode e.image with
    | none => .aborted fs
    | some img =>
      match pyIndex IMAGENETTE_LABELS e.label with
      | none => .aborted fs
      | some lname =>
        let p := imgPath splitRoot lname name
        if saveOk img p then
          writeSplit decode saveOk splitRoot rest (cnt + 1) (writeFile fs p (FileContent.png img))
        else .aborted fs

/-- The whole script: build the directory tree, write both spec files, then
write the train images and the test images with a single shared counter
starting at 0. -/
def runScript (decode : Img → Option Img) (saveOk : Img → String → Bool)
    (trainSet testSet : List Example) (nowTrain nowTest : String) (fs0 : FS) : RunResult :=
  match buildDirs fs0 with
  | .error _ => .aborted fs0
  | .ok fs1 =>
    let fs2 := writeSpecs fs1 nowTrain nowTest
    match writeSplit decode saveOk TRAIN_ROOT trainSet 0 fs2 with
    | .aborted fs => .aborted fs
    | .ok cnt fs3 => writeSplit decode saveOk TEST_ROOT testSet cnt fs3

/-- Whether processing one example at counter `cnt` succeeds: the decode
yields an image, the label lookup resolves, and the save succeeds. -/
def stepOk (decode : Img → Option Img) (saveOk : Img → String → Bool)
    (splitRoot : String) (cnt : Nat) (e : Example) : Bool :=
  match decode e.image with
  | none => false
  | some img =>
    match pyIndex IMAGENETTE_LABELS e.label with
    | none => false
    | some lname => saveOk img (imgPath splitRoot lname (zeroPad6 cnt ++ ".png"))

/-- The longest leading run of examples that all process successfully,
threading the counter. -/
def okTake (decode : Img → Option Img) (saveOk : Img → String → Bool)
    (splitRoot : String) : List Example → Nat → List Example
  | [], _ => []
  | e :: rest, cnt =>
    if stepOk decode saveOk splitRoot cnt e then
      e :: okTake decode saveOk splitRoot rest (cnt + 1)
    else []

/-- Whether every example of the list processes successfully from counter
`cnt`. -/
def allOk (decode : Img → Option Img) (saveOk : Img → String → Bool)
    (splitRoot : String) : List Example → Nat → Bool
  | [], _ => true
  | e :: rest, cnt =>
    stepOk decode saveOk splitRoot cnt e && allOk decode saveOk splitRoot rest (cnt + 1)

/-- The file-write event produced for one example at counter `cnt`
(meaningful when the step succeeds). -/
def writeOf (decode : Img → Option Img) (splitRoot : String) (cnt : Nat) (e : Example) :
    String × FileContent :=
  (imgPath splitRoot ((pyIndex IMAGENETTE_LABELS e.label).getD "") (zeroPad6 cnt ++ ".png"),
   FileContent.png ((decode e.image).getD []))

/-- The file-write events produced for a list of examples starting at
counter `cnt`. -/
def writesOf (decode : Img → Option Img) (splitRoot : String) :
    List Example → Nat → List (String × FileContent)
  | [], _ => []
  | e :: rest, cnt => writeOf decode splitRoot cnt e :: writesOf decode splitRoot rest (cnt + 1)

theorem writesOf_length (decode : Img → Option Img) (splitRoot : String)
    (exs : List Example) : ∀ cnt : Nat,
    (writesOf decode splitRoot exs cnt).length = exs.length := by
  induction exs with
  | nil => intro cnt; rfl
  | cons e rest ih => intro cnt; simp [writesOf, ih]

theorem writesOf_getElem (decode : Img → Option Img) (splitRoot : String)
    (exs : List Example) : ∀ (cnt k : Nat),
    (writesOf decode splitRoot exs cnt)[k]? = exs[k]?.map (writeOf decode splitRoot (cnt + k)) := by
  induction exs with
  | nil => intro cnt k; simp [writesOf]
  | cons e rest ih =>
    intro cnt k
    cases k with
    | zero => simp [writesOf]
    | succ k =>
      have h := ih (cnt + 1) k
      simpa [writesOf, Nat.add_assoc, Nat.add_comm 1 k] using h

/-- The write loop, characterized: when every step succeeds it returns the
incremented counter and appends one write per example; otherwise it aborts
with exactly the writes of the longest successful leading run appended. -/
theorem writeSplit_spec (decode : Img → Option Img) (saveOk : Img → String → Bool)
    (splitRoot : String) (exs : List Example) : ∀ (cnt : Nat) (fs : FS),
    writeSplit decode saveOk splitRoot exs cnt fs =
      if allOk decode saveOk splitRoot exs cnt then
        RunResult.ok (cnt + exs.length)
          ⟨fs.dirs, fs.files ++ writesOf decode splitRoot exs cnt⟩
      else
        RunResult.aborted
          ⟨fs.dirs, fs.files ++
            writesOf decode splitRoot (okTake decode saveOk splitRoot exs cnt) cnt⟩ := by
  induction exs with
  | nil => intro cnt fs; simp [writeSplit, allOk, writesOf]
  | cons e rest ih =>
    intro cnt fs
    by_cases hstep : stepOk decode saveOk splitRoot cnt e = true
    · obtain ⟨img, hd⟩ : ∃ img, decode e.image = some img := by
        cases hdec : decode e.image with
        | none => rw [stepOk, hdec] at hstep; simp at hstep
        | some img => exact ⟨img, rfl⟩
      obtain ⟨lname, hl⟩ : ∃ lname, pyIndex IMAGENETTE_LABELS e.label = some lname := by
        cases hidx : pyIndex IMAGENETTE_LABELS e.label with
        | none => rw [stepOk, hd, hidx] at hstep; simp at hstep
        | some lname => exact ⟨lname, rfl⟩
      have hsave : saveOk img (imgPath splitRoot lname (zeroPad6 cnt ++ ".png")) = true := by
        rw [stepOk, hd, hl] at hstep; exact hstep
      rw [writeSplit, hd, hl]
      simp only [hsave, if_true]
      rw [ih]
      have hw : writeOf decode splitRoot cnt e =
          (imgPath splitRoot lname (zeroPad6 cnt ++ ".png"), FileContent.png img) := by
        simp [writeOf, hd, hl]
      by_cases hrest : allOk decode saveOk splitRoot rest (cnt + 1) = true
      · simp [allOk, hstep, hrest, writeFile, writesOf, hw, List.append_assoc]
        omega
      · simp [allOk, hstep, hrest, writeFile, okTake, writesOf, hw, List.append_assoc]
    · have hfail : allOk decode saveOk splitRoot (e :: rest) cnt = false := by
        simp [allOk, hstep]
      have htake : okTake decode saveOk splitRoot (e :: rest) cnt = [] := by
        simp [okTake, hstep]
      rw [writeSplit]
      cases hdec : decode e.image with
      | none => simp [hfail, htake, writesOf]
      | some img =>
        cases hidx : pyIndex IMAGENETTE_LABELS e.label with
        | none => simp [hfail, htake, writesOf]
        | some lname =>
          have hsave : saveOk img (imgPath splitRoot lname (zeroPad6 cnt ++ ".png")) = false := by
            rw [stepOk, hdec, hidx] at hstep
            exact Bool.eq_false_iff.mpr hstep
          simp [hsave, hfail, htake, writesOf]

theorem okTake_of_allOk (decode : Img → Option Img) (saveOk : Img → String → Bool)
    (splitRoot : String) (exs : List Example) : ∀ cnt : Nat,
    allOk decode saveOk splitRoot exs cnt = true →
    okTake decode saveOk splitRoot exs cnt = exs := by
  induction exs with
  | nil => intro cnt _; rfl
  | cons e rest ih =>
    intro cnt h
    rw [allOk, Bool.and_eq_true] at h
    simp [okTake, h.1, ih (cnt + 1) h.2]

theorem allOk_append_fail (decode : Img → Option Img) (saveOk : Img → String → Bool)
    (splitRoot : String) (pre : List Example) (e : Example) (post : List Example) :
    ∀ cnt : Nat, allOk decode saveOk splitRoot pre cnt = true →
    stepOk decode saveOk splitRoot (cnt + pre.length) e = false →
    allOk decode saveOk splitRoot (pre ++ e :: post) cnt = false := by
  induction pre with
  | nil => intro cnt _ hfail; simp at hfail; simp [allOk, hfail]
  | cons p rest ih =>
    intro cnt hall hfail
    rw [allOk, Bool.and_eq_true] at hall
    have := ih (cnt + 1) hall.2 (by simpa [Nat.add_assoc, Nat.add_comm 1 rest.length] using hfail)
    simp [allOk, this]

theorem okTake_append_fail (decode : Img → Option Img) (saveOk : Img → String → Bool)
    (splitRoot : String) (pre : List Example) (e : Example) (post : List Example) :
    ∀ cnt : Nat, allOk decode saveOk splitRoot pre cnt = true →
    stepOk decode saveOk splitRoot (cnt + pre.length) e = false →
    okTake decode saveOk splitRoot (pre ++ e :: post) cnt = pre := by
  induction pre with
  | nil => intro cnt _ hfail; simp at hfail; simp [okTake, hfail]
  | cons p rest ih =>
    intro cnt hall hfail
    rw [allOk, Bool.and_eq_true] at hall
    have := ih (cnt + 1) hall.2 (by simpa [Nat.add_assoc, Nat.add_comm 1 rest.length] using hfail)
    simp [okTake, hall.1, this]

/-- The full list of directories the directory-building block ensures, in
creation order. -/
def builtDirs : List String :=
  pathDirs DEST_ROOT ++ pathDirs (osPathJoin DEST_ROOT TRAIN_ROOT) ++
    pathDirs (osPathJoin DEST_ROOT TEST_ROOT) ++
    ([TRAIN_ROOT, TEST_ROOT].map (fun d =>
        (IMAGENETTE_LABELS.map fun lab =>
          pathDirs (osPathJoin (osPathJoin DEST_ROOT d) lab)).flatten)).flatten

theorem makedirs_exist_ok (fs : FS) (p : String) :
    makedirs fs p true = Except.ok ⟨fs.dirs ++ pathDirs p, fs.files⟩ := by
  simp [makedirs]

theorem except_ok_bind (x : FS) (f : FS → Except String FS) :
    (Except.ok x >>= f : Except String FS) = f x := rfl

/-- With `exist_ok=True` throughout, the directory-building block always
succeeds, touches no files, and adds exactly `builtDirs`. -/
theorem buildDirs_eq (fs : FS) :
    buildDirs fs = Except.ok ⟨fs.dirs ++ builtDirs, fs.files⟩ := by
  simp [buildDirs, makedirs_exist_ok, IMAGENETTE_LABELS, List.foldlM, builtDirs,
    except_ok_bind, List.append_assoc]

/-- The two spec-file write events, train first. -/
def specFiles (nowTrain nowTest : String) : List (String × FileContent) :=
  [(train_spec_path, FileContent.json (train_spec nowTrain)),
   (test_spec_path, FileContent.json (test_spec nowTest))]

/-- The whole script, characterized: directories are built, both specs are
written (train first), then the train images, then the test images, with
the counter starting at 0 and carried from the train loop into the test
loop; any failure aborts with the successful prefix of writes in place. -/
theorem runScript_eq (decode : Img → Option Img) (saveOk : Img → String → Bool)
    (trainSet testSet : List Example) (nowTrain nowTest : String) (fs0 : FS) :
    runScript decode saveOk trainSet testSet nowTrain nowTest fs0 =
      if allOk decode saveOk TRAIN_ROOT trainSet 0 then
        if allOk decode saveOk TEST_ROOT testSet trainSet.length then
          RunResult.ok (trainSet.length + testSet.length)
            ⟨fs0.dirs ++ builtDirs,
              fs0.files ++ specFiles nowTrain nowTest ++
                writesOf decode TRAIN_ROOT trainSet 0 ++
                writesOf decode TEST_ROOT testSet trainSet.length⟩
        else
          RunResult.aborted
            ⟨fs0.dirs ++ builtDirs,
              fs0.files ++ specFiles nowTrain nowTest ++
                writesOf decode TRAIN_ROOT trainSet 0 ++
                writesOf decode TEST_ROOT
                  (okTake decode saveOk TEST_ROOT testSet trainSet.length) trainSet.length⟩
      else
        RunResult.aborted
          ⟨fs0.dirs ++ builtDirs,
            fs0.files ++ specFiles nowTrain nowTest ++
              writesOf decode TRAIN_ROOT (okTake decode saveOk TRAIN_ROOT trainSet 0) 0⟩ := by
  rw [runScript, buildDirs_eq]
  have hspecs : writeSpecs ⟨fs0.dirs ++ builtDirs, fs0.files⟩ nowTrain nowTest =
      ⟨fs0.dirs ++ builtDirs, fs0.files ++ specFiles nowTrain nowTest⟩ := by
    simp [writeSpecs, writeFile, specFiles]
  simp only [hspecs, writeSplit_spec, Nat.zero_add]
  by_cases h1 : allOk decode saveOk TRAIN_ROOT trainSet 0 = true
  · by_cases h2 : allOk decode saveOk TEST_ROOT testSet trainSet.length = true
    · simp [h1, h2, List.append_assoc]
    · simp [h1, h2, List.append_assoc]
  · simp [h1, List.append_assoc]

/-- Numeric value of a decimal digit character. -/
def digitVal (c : Char) : Nat := c.toNat - 48

/-- Read a character list as a decimal numeral (leading zeros allowed). -/
def parseDigits (l : List Char) : Nat :=
  l.foldl (fun a c => a * 10 + digitVal c) 0

theorem digitVal_ofNat (d : Nat) (h : d < 10) : digitVal (Char.ofNat (48 + d)) = d := by
  interval_cases d <;> decide

theorem natDecimalAux_foldl : ∀ fuel n : Nat, n ≤ fuel → ∀ a : Nat,
    (natDecimalAux fuel n).foldl (fun a c => a * 10 + digitVal c) a =
      a * 10 ^ (natDecimalAux fuel n).length + n := by
  intro fuel
  induction fuel with
  | zero =>
    intro n hn a
    have hn0 : n = 0 := by omega
    subst hn0
    have hdg : digitVal (Char.ofNat (48 + 0 % 10)) = 0 := by decide
    simp [natDecimalAux, hdg]
  | succ fuel ih =>
    intro n hn a
    by_cases h : n < 10
    · simp only [natDecimalAux, h, if_true]
      simp [digitVal_ofNat n h]
    · simp only [natDecimalAux, h, if_false, List.foldl_append, List.length_append,
        List.length_cons, List.length_nil, List.foldl_cons, List.foldl_nil]
      rw [ih (n / 10) (by omega) a]
      rw [digitVal_ofNat (n % 10) (Nat.mod_lt n (by omega))]
      have hp : (10 : Nat) ^ ((natDecimalAux fuel (n / 10)).length + 1) =
          10 ^ (natDecimalAux fuel (n / 10)).length * 10 := pow_succ 10 _
      generalize (10 : Nat) ^ (natDecimalAux fuel (n / 10)).length = b at hp ⊢
      rw [hp]
      ring_nf
      omega

theorem natDecimal_foldl (n : Nat) : ∀ a : Nat,
    (natDecimal n).foldl (fun a c => a * 10 + digitVal c) a =
      a * 10 ^ (natDecimal n).length + n :=
  natDecimalAux_foldl n n le_rfl

theorem parseDigits_natDecimal (n : Nat) : parseDigits (natDecimal n) = n := by
  have h := natDecimal_foldl n 0
  simpa [parseDigits] using h

theorem parseDigits_replicate_zero (k : Nat) (l : List Char) :
    parseDigits (List.replicate k '0' ++ l) = parseDigits l := by
  induction k with
  | zero => simp
  | succ k ih =>
    rw [List.replicate_succ, List.cons_append]
    show List.foldl _ (0 * 10 + digitVal '0') _ = _
    simpa [digitVal, parseDigits] using ih

theorem parseDigits_zeroPad6 (n : Nat) : parseDigits (zeroPad6 n).data = n := by
  show parseDigits (List.replicate (6 - (natDecimal n).length) '0' ++ natDecimal n) = n
  rw [parseDigits_replicate_zero, parseDigits_natDecimal]

theorem string_data_append (a b : String) : (a ++ b).data = a.data ++ b.data := rfl

/-- Distinct counter values give distinct `.png` filenames. -/
theorem pngName_inj {m n : Nat} (h : zeroPad6 m ++ ".png" = zeroPad6 n ++ ".png") : m = n := by
  have hd : (zeroPad6 m).data ++ ".png".data = (zeroPad6 n).data ++ ".png".data := by
    have := congrArg String.data h
    rwa [string_data_append, string_data_append] at this
  have hcancel := List.append_cancel_right hd
  have hm := parseDigits_zeroPad6 m
  have hn := parseDigits_zeroPad6 n
  rw [hcancel] at hm
  omega

theorem natDecimalAux_length_le : ∀ fuel n d : Nat, n ≤ fuel → 1 ≤ d → n < 10 ^ d →
    (natDecimalAux fuel n).length ≤ d := by
  intro fuel
  induction fuel with
  | zero =>
    intro n d hn hd _
    have hn0 : n = 0 := by omega
    subst hn0
    simpa [natDecimalAux] using hd
  | succ fuel ih =>
    intro n d hn hd hlt
    by_cases h : n < 10
    · simp only [natDecimalAux, h, if_true, List.length_cons, List.length_nil]
      omega
    · simp only [natDecimalAux, h, if_false, List.length_append, List.length_cons,
        List.length_nil]
      have hdge : 2 ≤ d := by
        by_contra hc
        have : d = 1 := by omega
        subst this
        simp at hlt
        omega
      have h10 : (10 : Nat) ^ d = 10 ^ (d - 1) * 10 := by
        rw [← pow_succ]
        congr 1
        omega
      have hdiv : n / 10 < 10 ^ (d - 1) := by
        apply Nat.div_lt_of_lt_mul
        omega
      have := ih (n / 10) (d - 1) (by omega) (by omega) hdiv
      omega

/-- `natDecimal n` has at most `d` digits when `n < 10 ^ d` (for `d ≥ 1`). -/
theorem natDecimal_length_le (n : Nat) : ∀ d : Nat, 1 ≤ d → n < 10 ^ d →
    (natDecimal n).length ≤ d := fun d hd hlt =>
  natDecimalAux_length_le n n d le_rfl hd hlt

/-- Counters below 1000000 render as exactly six characters. -/
theorem zeroPad6_length (n : Nat) (h : n < 1000000) : (zeroPad6 n).data.length = 6 := by
  have hle : (natDecimal n).length ≤ 6 :=
    natDecimal_length_le n 6 (by omega)
      (by have h6 : (10 : Nat) ^ 6 = 1000000 := by norm_num
          omega)
  show (List.replicate (6 - (natDecimal n).length) '0' ++ natDecimal n).length = 6
  simp [List.length_append, List.length_replicate]
  omega

theorem stepOk_elim {decode : Img → Option Img} {saveOk : Img → String → Bool}
    {splitRoot : String} {cnt : Nat} {e : Example}
    (h : stepOk decode saveOk splitRoot cnt e = true) :
    ∃ img lname, decode e.image = some img ∧
      pyIndex IMAGENETTE_LABELS e.label = some lname ∧
      saveOk img (imgPath splitRoot lname (zeroPad6 cnt ++ ".png")) = true := by
  cases hd : decode e.image with
  | none => rw [stepOk, hd] at h; simp at h
  | some img =>
    cases hl : pyIndex IMAGENETTE_LABELS e.label with
    | none => rw [stepOk, hd, hl] at h; simp at h
    | some lname =>
      rw [stepOk, hd, hl] at h
      exact ⟨img, lname, rfl, rfl, h⟩

theorem allOk_getElem {decode : Img → Option Img} {saveOk : Img → String → Bool}
    {splitRoot : String} (exs : List Example) : ∀ (cnt k : Nat) (e : Example),
    allOk decode saveOk splitRoot exs cnt = true → exs[k]? = some e →
    stepOk decode saveOk splitRoot (cnt + k) e = true := by
  induction exs with
  | nil => intro cnt k e _ hk; simp at hk
  | cons x rest ih =>
    intro cnt k e hall hk
    rw [allOk, Bool.and_eq_true] at hall
    cases k with
    | zero =>
      simp at hk
      subst hk
      simpa using hall.1
    | succ k =>
      simp at hk
      have := ih (cnt + 1) k e hall.2 hk
      simpa [Nat.add_assoc, Nat.add_comm 1 k] using this

theorem labels_length : IMAGENETTE_LABELS.length = 10 := rfl

theorem pyIndex_nonneg (l : Int) (h0 : 0 ≤ l) (h9 : l ≤ 9) :
    pyIndex IMAGENETTE_LABELS l = IMAGENETTE_LABELS[l.toNat]? := by
  have hj : (if l < 0 then (IMAGENETTE_LABELS.length : Int) + l else l) = l :=
    if_neg (by omega)
  simp only [pyIndex, hj]
  rw [dif_pos (show 0 ≤ l ∧ l < (IMAGENETTE_LABELS.length : Int) by
    rw [labels_length]; exact ⟨h0, by omega⟩)]
  rw [List.getElem?_eq_getElem (show l.toNat < IMAGENETTE_LABELS.length by
    rw [labels_length]; omega)]
  simp [List.get_eq_getElem]

theorem pyIndex_neg (l : Int) (hlo : -10 ≤ l) (hhi : l ≤ -1) :
    pyIndex IMAGENETTE_LABELS l = IMAGENETTE_LABELS[(l + 10).toNat]? := by
  have hj : (if l < 0 then (IMAGENETTE_LABELS.length : Int) + l else l) =
      (IMAGENETTE_LABELS.length : Int) + l := if_pos (by omega)
  simp only [pyIndex, hj]
  rw [dif_pos (show 0 ≤ (IMAGENETTE_LABELS.length : Int) + l ∧
      (IMAGENETTE_LABELS.length : Int) + l < (IMAGENETTE_LABELS.length : Int) by
    rw [labels_length]; exact ⟨by omega, by omega⟩)]
  have harg : ((IMAGENETTE_LABELS.length : Int) + l).toNat = (l + 10).toNat := by
    rw [labels_length]; omega
  simp only [harg]
  rw [List.getElem?_eq_getElem (show (l + 10).toNat < IMAGENETTE_LABELS.length by
    rw [labels_length]; omega)]
  simp [List.get_eq_getElem]

theorem pyIndex_out (l : Int) (h : l < -10 ∨ 9 < l) :
    pyIndex IMAGENETTE_LABELS l = none := by
  rcases h with hl | hl
  · have hj : (if l < 0 then (IMAGENETTE_LABELS.length : Int) + l else l) =
        (IMAGENETTE_LABELS.length : Int) + l := if_pos (by omega)
    simp only [pyIndex, hj]
    rw [dif_neg (show ¬ (0 ≤ (IMAGENETTE_LABELS.length : Int) + l ∧
        (IMAGENETTE_LABELS.length : Int) + l < (IMAGENETTE_LABELS.length : Int)) by
      rw [labels_length]; omega)]
  · have hj : (if l < 0 then (IMAGENETTE_LABELS.length : Int) + l else l) = l :=
      if_neg (by omega)
    simp only [pyIndex, hj]
    rw [dif_neg (show ¬ (0 ≤ l ∧ l < (IMAGENETTE_LABELS.length : Int)) by
      rw [labels_length]; omega)]

/-- The image-write events a run produces: the successful leading run of
the train loop, then — only when the whole train loop succeeded — the
successful leading run of the test loop, continuing the counter. -/
def runImageWrites (decode : Img → Option Img) (saveOk : Img → String → Bool)
    (trainSet testSet : List Example) : List (String × FileContent) :=
  writesOf decode TRAIN_ROOT (okTake decode saveOk TRAIN_ROOT trainSet 0) 0 ++
    if allOk decode saveOk TRAIN_ROOT trainSet 0 then
      writesOf decode TEST_ROOT (okTake decode saveOk TEST_ROOT testSet trainSet.length)
        trainSet.length
    else []

/-- Whatever happens, a run's write log is the initial log, the two spec
writes, then its image writes. -/
theorem runScript_files (decode : Img → Option Img) (saveOk : Img → String → Bool)
    (trainSet testSet : List Example) (nowTrain nowTest : String) (fs0 : FS) :
    (RunResult.fs (runScript decode saveOk trainSet testSet nowTrain nowTest fs0)).files =
      fs0.files ++ specFiles nowTrain nowTest ++
        runImageWrites decode saveOk trainSet testSet := by
  rw [runScript_eq]
  by_cases h1 : allOk decode saveOk TRAIN_ROOT trainSet 0 = true
  · by_cases h2 : allOk decode saveOk TEST_ROOT testSet trainSet.length = true
    · simp [h1, h2, RunResult.fs, runImageWrites,
        okTake_of_allOk decode saveOk TRAIN_ROOT trainSet 0 h1,
        okTake_of_allOk decode saveOk TEST_ROOT testSet trainSet.length h2,
        List.append_assoc]
    · simp [h1, h2, RunResult.fs, runImageWrites,
        okTake_of_allOk decode saveOk TRAIN_ROOT trainSet 0 h1, List.append_assoc]
  · simp [h1, RunResult.fs, runImageWrites, List.append_assoc]

/-- Whether a file content is a PNG image (as opposed to a JSON spec). -/
def isPng : FileContent → Bool
  | .png _ => true
  | .json _ => false

/-- `os.path.dirname`: everything before the final path separator. -/
def dirname (p : String) : String :=
  String.mk (((p.data.reverse.dropWhile fun c => c ≠ '/').drop 1).reverse)

/-- Whether path `p` lies (directly or not) inside directory `d`. -/
def inDir (d p : String) : Bool :=
  decide (p.data.take (d.data.length + 1) = d.data ++ ['/'])

/-- Number of PNG files written inside directory `d`. -/
def countPngs (files : List (String × FileContent)) (d : String) : Nat :=
  (files.filter fun pc => inDir d pc.1 && isPng pc.2).length

theorem countPngs_cons_json (p : String) (doc : SpecDoc)
    (rest : List (String × FileContent)) (d : String) :
    countPngs ((p, FileContent.json doc) :: rest) d = countPngs rest d := by
  simp [countPngs, isPng]

/-- C1: after the directory-building stage, run from any starting
filesystem — so in particular a rerun over an already-built tree — the
stage succeeds without error (idempotent `exist_ok=True` creation), and
the dataset root, its `train` and `test` subtrees, and `train/{label}` and
`test/{label}` for every one of the 10 configured label names all exist. -/
theorem buildDirs_creates_tree (fs0 : FS) :
    ∃ fs1, buildDirs fs0 = Except.ok fs1 ∧
      DIR_ROOT ∈ fs1.dirs ∧ TRAIN_ROOT ∈ fs1.dirs ∧ TEST_ROOT ∈ fs1.dirs ∧
      ∀ lab ∈ IMAGENETTE_LABELS,
        osPathJoin TRAIN_ROOT lab ∈ fs1.dirs ∧ osPathJoin TEST_ROOT lab ∈ fs1.dirs := by
  refine ⟨⟨fs0.dirs ++ builtDirs, fs0.files⟩, buildDirs_eq fs0, ?_, ?_, ?_, ?_⟩
  · exact List.mem_append_right _ (by decide)
  · exact List.mem_append_right _ (by decide)
  · exact List.mem_append_right _ (by decide)
  · intro lab hlab
    have h : osPathJoin TRAIN_ROOT lab ∈ builtDirs ∧ osPathJoin TEST_ROOT lab ∈ builtDirs := by
      revert hlab
      revert lab
      decide
    exact ⟨List.mem_append_right _ h.1, List.mem_append_right _ h.2⟩

theorem buildDirs_creates_tree_witness :
    ∃ fs1, buildDirs ⟨["/somewhere/else"], []⟩ = Except.ok fs1 ∧
      osPathJoin TRAIN_ROOT "church" ∈ fs1.dirs := by
  obtain ⟨fs1, h1, _, _, _, h5⟩ := buildDirs_creates_tree ⟨["/somewhere/else"], []⟩
  exact ⟨fs1, h1, (h5 "church" (by decide)).1⟩

/-- C2: both spec documents have `numModelClasses = 10`,
`imageProperties.dimensions = "224,224"` and `colorspace = "rgb"`, and a
`data` array of exactly 10 entries whose `i`-th entry carries label `i`,
the `i`-th configured label name (index 0 being `"tench"`), and the
relative split directory for that name. -/
theorem spec_docs_fields (nowTrain nowTest : String) :
    (train_spec nowTrain).numModelClasses = 10 ∧
    (test_spec nowTest).numModelClasses = 10 ∧
    (train_spec nowTrain).imageProperties.dimensions = "224,224" ∧
    (test_spec nowTest).imageProperties.dimensions = "224,224" ∧
    (train_spec nowTrain).imageProperties.colorspace = "rgb" ∧
    (test_spec nowTest).imageProperties.colorspace = "rgb" ∧
    (train_spec nowTrain).data.length = 10 ∧
    (test_spec nowTest).data.length = 10 ∧
    IMAGENETTE_LABELS[0]? = some "tench" ∧
    (∀ i : Nat, i < 10 →
      (train_spec nowTrain).data[i]? = (IMAGENETTE_LABELS[i]?).map (fun name =>
        ⟨i, name, osPathJoin (osPathJoin DIR_NAME "train") name⟩) ∧
      (test_spec nowTest).data[i]? = (IMAGENETTE_LABELS[i]?).map (fun name =>
        ⟨i, name, osPathJoin (osPathJoin DIR_NAME "test") name⟩)) := by
  refine ⟨rfl, rfl, rfl, rfl, rfl, rfl, rfl, rfl, rfl, ?_⟩
  have ht : (train_spec nowTrain).data = (train_spec "x").data := rfl
  have he : (test_spec nowTest).data = (test_spec "x").data := rfl
  rw [ht, he]
  decide

theorem spec_docs_fields_witness :
    (train_spec "t0").numModelClasses = 10 ∧
    (train_spec "t0").data[0]? = (IMAGENETTE_LABELS[0]?).map (fun name =>
      ⟨0, name, osPathJoin (osPathJoin DIR_NAME "train") name⟩) := by
  have h := spec_docs_fields "t0" "t1"
  exact ⟨h.1, (h.2.2.2.2.2.2.2.2.2 0 (by decide)).1⟩

/-- C10: the label lookup `IMAGENETTE_LABELS[i["label"]]` behaves as Python
indexing: labels 0..9 pick the name at that index; labels -10..-1 silently
resolve from the end, so the write loop saves the image — without any
error — into the directory of label `label + 10`; only labels outside
-10..9 raise `IndexError`, aborting the loop. -/
theorem label_lookup_python_indexing :
    (∀ l : Int, 0 ≤ l → l ≤ 9 →
      pyIndex IMAGENETTE_LABELS l = IMAGENETTE_LABELS[l.toNat]?) ∧
    (∀ l : Int, -10 ≤ l → l ≤ -1 →
      pyIndex IMAGENETTE_LABELS l = IMAGENETTE_LABELS[(l + 10).toNat]?) ∧
    (∀ l : Int, l < -10 ∨ 9 < l → pyIndex IMAGENETTE_LABELS l = none) ∧
    (∀ (decode : Img → Option Img) (saveOk : Img → String → Bool) (e : Example)
        (rest : List Example) (cnt : Nat) (fs : FS) (img : Img) (lname : String),
      decode e.image = some img → -10 ≤ e.label → e.label ≤ -1 →
      IMAGENETTE_LABELS[(e.label + 10).toNat]? = some lname →
      saveOk img (imgPath TRAIN_ROOT lname (zeroPad6 cnt ++ ".png")) = true →
      writeSplit decode saveOk TRAIN_ROOT (e :: rest) cnt fs =
        writeSplit decode saveOk TRAIN_ROOT rest (cnt + 1)
          (writeFile fs (imgPath TRAIN_ROOT lname (zeroPad6 cnt ++ ".png"))
            (FileContent.png img))) ∧
    (∀ (decode : Img → Option Img) (saveOk : Img → String → Bool)
        (splitRoot : String) (e : Example) (rest : List Example) (cnt : Nat) (fs : FS) (img : Img),
      decode e.image = some img → (e.label < -10 ∨ 9 < e.label) →
      writeSplit decode saveOk splitRoot (e :: rest) cnt fs = RunResult.aborted fs) := by
  refine ⟨pyIndex_nonneg, pyIndex_neg, pyIndex_out, ?_, ?_⟩
  · intro decode saveOk e rest cnt fs img lname hdec hlo hhi hidx hsave
    have hpy : pyIndex IMAGENETTE_LABELS e.label = some lname := by
      rw [pyIndex_neg e.label hlo hhi, hidx]
    rw [writeSplit, hdec, hpy]
    simp [hsave]
  · intro decode saveOk splitRoot e rest cnt fs img hdec hout
    rw [writeSplit, hdec, pyIndex_out e.label hout]

theorem label_lookup_python_indexing_witness :
    pyIndex IMAGENETTE_LABELS (-3) = some "gas_pump" ∧
    pyIndex IMAGENETTE_LABELS 11 = none ∧
    writeSplit some (fun _ _ => true) TRAIN_ROOT [⟨[7], -3⟩] 0 ⟨[], []⟩ =
      RunResult.ok 1 ⟨[], [(imgPath TRAIN_ROOT "gas_pump" (zeroPad6 0 ++ ".png"),
        FileContent.png [7])]⟩ ∧
    writeSplit some (fun _ _ => true) TRAIN_ROOT [⟨[7], 12⟩] 0 ⟨[], []⟩ =
      RunResult.aborted ⟨[], []⟩ := by
  have h := label_lookup_python_indexing
  refine ⟨?_, ?_, ?_, ?_⟩
  · rw [h.2.1 (-3) (by decide) (by decide)]
    decide
  · exact h.2.2.1 11 (by decide)
  · rw [h.2.2.2.1 some (fun _ _ => true) ⟨[7], -3⟩ [] 0 ⟨[], []⟩ [7] "gas_pump"
      rfl (by decide) (by decide) (by decide) rfl]
    rfl
  · exact h.2.2.2.2 some (fun _ _ => true) TRAIN_ROOT ⟨[7], 12⟩ [] 0 ⟨[], []⟩ [7]
      rfl (by decide)

/-- C5: in a successful pass over a split, the image decoded from the k-th
example is saved, in iteration order, at
`root/{splitRoot}/{labelName(example.label)}/{filename}` — the directory
named by the label name at the example's integer label index under the
split root, with the filename formed from the threaded counter. -/
theorem images_land_in_label_dir (decode : Img → Option Img) (saveOk : Img → String → Bool)
    (splitRoot : String) (exs : List Example) (cnt : Nat) (fs : FS)
    (h : allOk decode saveOk splitRoot exs cnt = true) :
    ∃ fs2, writeSplit decode saveOk splitRoot exs cnt fs =
        RunResult.ok (cnt + exs.length) fs2 ∧
      ∀ k e, exs[k]? = some e →
        ∃ img lname, decode e.image = some img ∧
          pyIndex IMAGENETTE_LABELS e.label = some lname ∧
          fs2.files[fs.files.length + k]? =
            some (imgPath splitRoot lname (zeroPad6 (cnt + k) ++ ".png"),
              FileContent.png img) := by
  rw [writeSplit_spec]
  simp only [h, if_true]
  refine ⟨_, rfl, ?_⟩
  intro k e hk
  obtain ⟨img, lname, hdec, hpy, _⟩ := stepOk_elim (allOk_getElem exs cnt k e h hk)
  refine ⟨img, lname, hdec, hpy, ?_⟩
  have hidx : (fs.files ++ writesOf decode splitRoot exs cnt)[fs.files.length + k]? =
      (writesOf decode splitRoot exs cnt)[k]? := by
    rw [List.getElem?_append_right (by omega)]
    congr 1
    omega
  rw [hidx, writesOf_getElem, hk]
  simp [writeOf, hdec, hpy]

theorem images_land_in_label_dir_witness :
    ∃ fs2, writeSplit some (fun _ _ => true) TRAIN_ROOT [⟨[3], 4⟩] 0 ⟨[], []⟩ =
        RunResult.ok 1 fs2 ∧
      ∃ img lname, some [3] = some img ∧
        pyIndex IMAGENETTE_LABELS 4 = some lname ∧
        fs2.files[0]? = some (imgPath TRAIN_ROOT lname (zeroPad6 0 ++ ".png"),
          FileContent.png img) := by
  obtain ⟨fs2, hrun, hall⟩ :=
    images_land_in_label_dir some (fun _ _ => true) TRAIN_ROOT [⟨[3], 4⟩] 0 ⟨[], []⟩ (by decide)
  obtain ⟨img, lname, h1, h2, h3⟩ := hall 0 ⟨[3], 4⟩ rfl
  exact ⟨fs2, hrun, img, lname, h1, h2, h3⟩

/-- C3: the filename counter is run-global and shared across the two
splits: in a successful run the k-th train image (iteration order) is
numbered `k`, for k = 0..N-1 where N is the train split's length, and the
j-th test image is numbered `N + j` — the counter is not reset between
splits, and the split is indicated by the directory root (`TRAIN_ROOT` vs
`TEST_ROOT`) in the written path, not by the filename. -/
theorem counter_shared_across_splits (decode : Img → Option Img)
    (saveOk : Img → String → Bool) (trainSet testSet : List Example)
    (nowTrain nowTest : String) (fs0 : FS)
    (hT : allOk decode saveOk TRAIN_ROOT trainSet 0 = true)
    (hE : allOk decode saveOk TEST_ROOT testSet trainSet.length = true) :
    ∃ fsOut, runScript decode saveOk trainSet testSet nowTrain nowTest fs0 =
        RunResult.ok (trainSet.length + testSet.length) fsOut ∧
      fsOut.files = fs0.files ++ specFiles nowTrain nowTest ++
        writesOf decode TRAIN_ROOT trainSet 0 ++
        writesOf decode TEST_ROOT testSet trainSet.length ∧
      (∀ k e, trainSet[k]? = some e →
        (writesOf decode TRAIN_ROOT trainSet 0)[k]? = some
          (imgPath TRAIN_ROOT ((pyIndex IMAGENETTE_LABELS e.label).getD "")
            (zeroPad6 k ++ ".png"),
           FileContent.png ((decode e.image).getD []))) ∧
      (∀ j e, testSet[j]? = some e →
        (writesOf decode TEST_ROOT testSet trainSet.length)[j]? = some
          (imgPath TEST_ROOT ((pyIndex IMAGENETTE_LABELS e.label).getD "")
            (zeroPad6 (trainSet.length + j) ++ ".png"),
           FileContent.png ((decode e.image).getD []))) := by
  rw [runScript_eq]
  simp only [hT, hE, if_true]
  refine ⟨_, rfl, rfl, ?_, ?_⟩
  · intro k e hk
    rw [writesOf_getElem, hk]
    simp [writeOf]
  · intro j e hj
    rw [writesOf_getElem, hj]
    simp [writeOf]

theorem counter_shared_across_splits_witness :
    ∃ fsOut, runScript some (fun _ _ => true) [⟨[1], 0⟩] [⟨[2], 1⟩] "t0" "t1" ⟨[], []⟩ =
        RunResult.ok 2 fsOut ∧
      (writesOf some TEST_ROOT [⟨[2], 1⟩] 1)[0]? = some
        (imgPath TEST_ROOT ((pyIndex IMAGENETTE_LABELS 1).getD "") (zeroPad6 1 ++ ".png"),
         FileContent.png [2]) := by
  obtain ⟨fsOut, hrun, _, _, htest⟩ :=
    counter_shared_across_splits some (fun _ _ => true) [⟨[1], 0⟩] [⟨[2], 1⟩] "t0" "t1"
      ⟨[], []⟩ (by decide) (by decide)
  exact ⟨fsOut, hrun, htest 0 ⟨[2], 1⟩ rfl⟩

theorem writesOf_name (decode : Img → Option Img) (splitRoot : String)
    (exs : List Example) (cnt k : Nat) (pc : String × FileContent)
    (h : (writesOf decode splitRoot exs cnt)[k]? = some pc) :
    ∃ d, pc.1 = osPathJoin d (zeroPad6 (cnt + k) ++ ".png") := by
  rw [writesOf_getElem] at h
  cases he : exs[k]? with
  | none => rw [he] at h; simp at h
  | some e =>
    rw [he, Option.map_some'] at h
    have h2 := Option.some.inj h
    refine ⟨osPathJoin (osPathJoin DEST_ROOT splitRoot)
      ((pyIndex IMAGENETTE_LABELS e.label).getD ""), ?_⟩
    rw [← h2]
    rfl

theorem writesOf_isPng (decode : Img → Option Img) (splitRoot : String)
    (exs : List Example) : ∀ cnt : Nat, ∀ pc ∈ writesOf decode splitRoot exs cnt,
    isPng pc.2 = true := by
  induction exs with
  | nil => intro cnt pc h; simp [writesOf] at h
  | cons e rest ih =>
    intro cnt pc h
    rw [writesOf] at h
    rcases List.mem_cons.mp h with h | h
    · rw [h]; rfl
    · exact ih (cnt + 1) pc h

/-- C4: in every run — whatever the input sequences and collaborator
behaviour — the write log is the spec files followed by the image writes,
the k-th image write of the run uses the filename built from the decimal
counter value `k` left-zero-padded to width 6 followed by `".png"`
(exactly six digits whenever the counter is below 1000000), and distinct
counter values never yield the same filename, so no two image files
written during a run share a filename. -/
theorem filenames_padded_and_unique (decode : Img → Option Img)
    (saveOk : Img → String → Bool) (trainSet testSet : List Example)
    (nowTrain nowTest : String) (fs0 : FS) :
    (RunResult.fs (runScript decode saveOk trainSet testSet nowTrain nowTest fs0)).files =
      fs0.files ++ specFiles nowTrain nowTest ++
        runImageWrites decode saveOk trainSet testSet ∧
    (∀ k pc, (runImageWrites decode saveOk trainSet testSet)[k]? = some pc →
      ∃ d, pc.1 = osPathJoin d (zeroPad6 k ++ ".png")) ∧
    (∀ k : Nat, k < 1000000 → (zeroPad6 k).data.length = 6) ∧
    (∀ k j : Nat, zeroPad6 k ++ ".png" = zeroPad6 j ++ ".png" → k = j) := by
  refine ⟨runScript_files decode saveOk trainSet testSet nowTrain nowTest fs0, ?_,
    zeroPad6_length, fun k j h => pngName_inj h⟩
  intro k pc hk
  rw [runImageWrites] at hk
  set A := writesOf decode TRAIN_ROOT (okTake decode saveOk TRAIN_ROOT trainSet 0) 0 with hA
  by_cases hlt : k < A.length
  · rw [List.getElem?_append_left hlt] at hk
    have := writesOf_name decode TRAIN_ROOT
      (okTake decode saveOk TRAIN_ROOT trainSet 0) 0 k pc hk
    simpa using this
  · rw [List.getElem?_append_right (Nat.le_of_not_lt hlt)] at hk
    by_cases hall : allOk decode saveOk TRAIN_ROOT trainSet 0 = true
    · rw [if_pos hall] at hk
      have hAlen : A.length = trainSet.length := by
        rw [hA, writesOf_length, okTake_of_allOk decode saveOk TRAIN_ROOT trainSet 0 hall]
      have := writesOf_name decode TEST_ROOT
        (okTake decode saveOk TEST_ROOT testSet trainSet.length) trainSet.length
        (k - A.length) pc hk
      rwa [hAlen, Nat.add_sub_cancel' (by omega)] at this
    · rw [if_neg hall] at hk
      simp at hk

theorem filenames_padded_and_unique_witness :
    ∃ d, imgPath TRAIN_ROOT "English_springer" (zeroPad6 1 ++ ".png") =
      osPathJoin d (zeroPad6 1 ++ ".png") := by
  have h := filenames_padded_and_unique some (fun _ _ => true)
    [⟨[1], 0⟩, ⟨[2], 1⟩] [] "t0" "t1" ⟨[], []⟩
  exact h.2.1 1 (imgPath TRAIN_ROOT "English_springer" (zeroPad6 1 ++ ".png"),
    FileContent.png [2]) (by decide)

/-- C9: stage ordering — a fully successful run's write log is exactly the
two spec JSON files (train spec first) followed by all the train image
writes followed by all the test image writes, so no image file is written
before both spec files and no test image before all train images; the
trailing sections are image writes only. -/
theorem stages_are_ordered (decode : Img → Option Img) (saveOk : Img → String → Bool)
    (trainSet testSet : List Example) (nowTrain nowTest : String) (fs0 : FS)
    (hT : allOk decode saveOk TRAIN_ROOT trainSet 0 = true)
    (hE : allOk decode saveOk TEST_ROOT testSet trainSet.length = true) :
    runScript decode saveOk trainSet testSet nowTrain nowTest fs0 =
      RunResult.ok (trainSet.length + testSet.length)
        ⟨fs0.dirs ++ builtDirs,
          fs0.files ++
            [(train_spec_path, FileContent.json (train_spec nowTrain)),
             (test_spec_path, FileContent.json (test_spec nowTest))] ++
            writesOf decode TRAIN_ROOT trainSet 0 ++
            writesOf decode TEST_ROOT testSet trainSet.length⟩ ∧
    (∀ pc ∈ writesOf decode TRAIN_ROOT trainSet 0, isPng pc.2 = true) ∧
    (∀ pc ∈ writesOf decode TEST_ROOT testSet trainSet.length, isPng pc.2 = true) := by
  refine ⟨?_, writesOf_isPng decode TRAIN_ROOT trainSet 0,
    writesOf_isPng decode TEST_ROOT testSet trainSet.length⟩
  rw [runScript_eq]
  simp only [hT, hE, if_true]
  rfl

theorem stages_are_ordered_witness :
    runScript some (fun _ _ => true) [⟨[1], 0⟩] [⟨[2], 1⟩] "t0" "t1" ⟨[], []⟩ =
      RunResult.ok 2
        ⟨[] ++ builtDirs,
          [] ++
            [(train_spec_path, FileContent.json (train_spec "t0")),
             (test_spec_path, FileContent.json (test_spec "t1"))] ++
            writesOf some TRAIN_ROOT [⟨[1], 0⟩] 0 ++
            writesOf some TEST_ROOT [⟨[2], 1⟩] 1⟩ :=
  (stages_are_ordered some (fun _ _ => true) [⟨[1], 0⟩] [⟨[2], 1⟩] "t0" "t1" ⟨[], []⟩
    (by decide) (by decide)).1

/-- C8: no rollback — when processing the k-th image of the run fails
(decode, label lookup, or save; k counted across both splits), the run
aborts at that point with exactly the image writes of the first k examples
appended after the spec files; the already-written prefix is left in place
and no later image is written. -/
theorem abort_keeps_prefix_of_writes (decode : Img → Option Img)
    (saveOk : Img → String → Bool) (trainSet testSet : List Example)
    (nowTrain nowTest : String) (fs0 : FS) :
    (∀ pre e post, trainSet = pre ++ e :: post →
      allOk decode saveOk TRAIN_ROOT pre 0 = true →
      stepOk decode saveOk TRAIN_ROOT pre.length e = false →
      runScript decode saveOk trainSet testSet nowTrain nowTest fs0 =
        RunResult.aborted ⟨fs0.dirs ++ builtDirs,
          fs0.files ++ specFiles nowTrain nowTest ++ writesOf decode TRAIN_ROOT pre 0⟩ ∧
      (writesOf decode TRAIN_ROOT pre 0).length = pre.length) ∧
    (∀ pre e post, testSet = pre ++ e :: post →
      allOk decode saveOk TRAIN_ROOT trainSet 0 = true →
      allOk decode saveOk TEST_ROOT pre trainSet.length = true →
      stepOk decode saveOk TEST_ROOT (trainSet.length + pre.length) e = false →
      runScript decode saveOk trainSet testSet nowTrain nowTest fs0 =
        RunResult.aborted ⟨fs0.dirs ++ builtDirs,
          fs0.files ++ specFiles nowTrain nowTest ++
            writesOf decode TRAIN_ROOT trainSet 0 ++
            writesOf decode TEST_ROOT pre trainSet.length⟩ ∧
      (writesOf decode TRAIN_ROOT trainSet 0 ++
        writesOf decode TEST_ROOT pre trainSet.length).length =
        trainSet.length + pre.length) := by
  constructor
  · intro pre e post hsplit hpre hfail
    subst hsplit
    have hfail0 : stepOk decode saveOk TRAIN_ROOT (0 + pre.length) e = false := by
      simpa using hfail
    have hnall : allOk decode saveOk TRAIN_ROOT (pre ++ e :: post) 0 = false :=
      allOk_append_fail decode saveOk TRAIN_ROOT pre e post 0 hpre hfail0
    have htake : okTake decode saveOk TRAIN_ROOT (pre ++ e :: post) 0 = pre :=
      okTake_append_fail decode saveOk TRAIN_ROOT pre e post 0 hpre hfail0
    rw [runScript_eq]
    simp only [hnall, Bool.false_eq_true, if_false, htake]
    exact ⟨by trivial, writesOf_length decode TRAIN_ROOT pre 0⟩
  · intro pre e post hsplit hall hpre hfail
    subst hsplit
    have hnall : allOk decode saveOk TEST_ROOT (pre ++ e :: post) trainSet.length = false :=
      allOk_append_fail decode saveOk TEST_ROOT pre e post trainSet.length hpre hfail
    have htake : okTake decode saveOk TEST_ROOT (pre ++ e :: post) trainSet.length = pre :=
      okTake_append_fail decode saveOk TEST_ROOT pre e post trainSet.length hpre hfail
    rw [runScript_eq]
    simp only [hall, if_true, hnall, Bool.false_eq_true, if_false, htake]
    refine ⟨by trivial, ?_⟩
    rw [List.length_append, writesOf_length, writesOf_length]

theorem abort_keeps_prefix_of_writes_witness :
    runScript (fun l => if l = [9] then none else some l) (fun _ _ => true)
        [⟨[1], 0⟩, ⟨[9], 1⟩, ⟨[2], 2⟩] [] "t0" "t1" ⟨[], []⟩ =
      RunResult.aborted ⟨[] ++ builtDirs,
        [] ++ specFiles "t0" "t1" ++
          writesOf (fun l => if l = [9] then none else some l) TRAIN_ROOT [⟨[1], 0⟩] 0⟩ ∧
    (writesOf (fun l => if l = [9] then none else some l) TRAIN_ROOT [⟨[1], 0⟩] 0).length = 1 :=
  (abort_keeps_prefix_of_writes (fun l => if l = [9] then none else some l)
      (fun _ _ => true) [⟨[1], 0⟩, ⟨[9], 1⟩, ⟨[2], 2⟩] [] "t0" "t1" ⟨[], []⟩).1
    [⟨[1], 0⟩] ⟨[9], 1⟩ [⟨[2], 2⟩] rfl (by decide) (by decide)

/-- C7: determinism — two runs of the script over the same deterministic
input sequences and collaborators, each against an empty destination,
produce identical (label-directory, file-content) pairs for the written
images, even when the two runs observe different wall-clock timestamps. -/
theorem deterministic_image_outputs (decode : Img → Option Img)
    (saveOk : Img → String → Bool) (trainSet testSet : List Example)
    (nowT1 nowE1 nowT2 nowE2 : String) :
    ((RunResult.fs (runScript decode saveOk trainSet testSet nowT1 nowE1 ⟨[], []⟩)).files.filter
        (fun pc => isPng pc.2)).map (fun pc => (dirname pc.1, pc.2)) =
    ((RunResult.fs (runScript decode saveOk trainSet testSet nowT2 nowE2 ⟨[], []⟩)).files.filter
        (fun pc => isPng pc.2)).map (fun pc => (dirname pc.1, pc.2)) := by
  rw [runScript_files, runScript_files]
  simp [specFiles, isPng, List.filter_append]

/-- C6: end-to-end — on an empty destination, a run over a train split of
3 examples with labels 0,0,1 and a test split of 2 examples with labels
2,9 (all decodes and saves succeeding) succeeds with final counter 5 and
yields exactly 2 PNGs in `train/tench`, 1 in `train/English_springer`,
1 in `test/cassette_player`, 1 in `test/parachute`, and none in any other
label directory, with both JSON spec files written first and carrying
`numModelClasses = 10`. -/
theorem end_to_end_small_run (nowTrain nowTest : String) :
    ∃ fsOut,
      runScript some (fun _ _ => true)
          [⟨[1], 0⟩, ⟨[2], 0⟩, ⟨[3], 1⟩] [⟨[4], 2⟩, ⟨[5], 9⟩] nowTrain nowTest ⟨[], []⟩ =
        RunResult.ok 5 fsOut ∧
      (∀ root ∈ [TRAIN_ROOT, TEST_ROOT], ∀ lab ∈ IMAGENETTE_LABELS,
        countPngs fsOut.files (osPathJoin root lab) =
          if (root, lab) = (TRAIN_ROOT, "tench") then 2
          else if (root, lab) ∈ [(TRAIN_ROOT, "English_springer"),
            (TEST_ROOT, "cassette_player"), (TEST_ROOT, "parachute")] then 1
          else 0) ∧
      fsOut.files[0]? = some (train_spec_path, FileContent.json (train_spec nowTrain)) ∧
      fsOut.files[1]? = some (test_spec_path, FileContent.json (test_spec nowTest)) ∧
      (train_spec nowTrain).numModelClasses = 10 ∧
      (test_spec nowTest).numModelClasses = 10 := by
  refine ⟨_, rfl, ?_, rfl, rfl, rfl, rfl⟩
  intro root hroot lab hlab
  fin_cases hroot <;> fin_cases hlab <;> rfl

theorem end_to_end_small_run_witness :
    ∃ fsOut,
      runScript some (fun _ _ => true)
          [⟨[1], 0⟩, ⟨[2], 0⟩, ⟨[3], 1⟩] [⟨[4], 2⟩, ⟨[5], 9⟩] "t0" "t1" ⟨[], []⟩ =
        RunResult.ok 5 fsOut ∧
      countPngs fsOut.files (osPathJoin TRAIN_ROOT "tench") = 2 ∧
      countPngs fsOut.files (osPathJoin TEST_ROOT "church") = 0 := by
  obtain ⟨fsOut, hrun, hcount, _⟩ := end_to_end_small_run "t0" "t1"
  refine ⟨fsOut, hrun, ?_, ?_⟩
  · have := hcount TRAIN_ROOT (by decide) "tench" (by decide)
    simpa using this
  · have := hcount TEST_ROOT (by decide) "church" (by decide)
    simpa using this

end Imagenette
